import Mathlib

/-!
Shallow embedding of `src/databricks/labs/ucx/hive_metastore/table_migrate.py`
(the migration orchestrator `TablesMigrate` and the reconciliation engine
`MigrationStatusRefresher`), together with theorems settling the spec claims.

Statements are modelled as an inductive shape type (the spec's §6 "domain
protocol, not literal syntax"); backend interactions are recorded as a trace
of execute/fetch actions, and Python exceptions surface as `Except` errors.
Python dictionaries are modelled as insertion-ordered association lists with
update-in-place semantics (`dictInsert`), matching dict iteration order.
-/

set_option linter.unusedVariables false

/-- Modelled from the spec: the migration-strategy classification `What` from
`hive_metastore.tables` (not under `src/`): a closed enum of four values. -/
inductive What where
  | DBFS_ROOT_DELTA
  | EXTERNAL_SYNC
  | VIEW
  | NOT_SUPPORTED
deriving DecidableEq

/-- Modelled from the spec: the source catalog-object descriptor `Table` from
`hive_metastore.tables` (not under `src/`): identity (`database`, `name`,
composite `key`), `kind`, `object_type`, storage location, derived
classification `what`, and the optional `upgraded_to` tag. -/
structure Table where
  database : String
  name : String
  key : String
  kind : String
  object_type : String
  what : What
  location : Option String := none
  upgraded_to : Option String := none
deriving DecidableEq

/-- Modelled from the spec: a `Rule` from `hive_metastore.mapping` (not under
`src/`) maps one source object to one destination `catalog.schema.table`
identity. -/
structure Rule where
  catalog : String
  dst_schema : String
  dst_table : String
deriving DecidableEq

/-- `Rule.as_uc_table_key`: the destination identity as one dotted string. -/
def Rule.as_uc_table_key (r : Rule) : String :=
  r.catalog ++ "." ++ r.dst_schema ++ "." ++ r.dst_table

/-- `MigrationStatus` dataclass (table_migrate.py lines 23-30). -/
structure MigrationStatus where
  src_schema : String
  src_table : String
  dst_catalog : Option String := none
  dst_schema : Option String := none
  dst_table : Option String := none
  update_ts : Option String := none
deriving DecidableEq

/-- Modelled from the spec: `MigrationCount` from `hive_metastore.tables`
(not under `src/`): one row per source database with a per-`What` count. -/
structure MigrationCount where
  database : String
  what_count : List (What × Nat)
deriving DecidableEq

/-- A structured backend row; the SYNC result rows use `status_code` and
`description`, the SHOW TBLPROPERTIES rows use `key`. Unused fields default
to the empty string. -/
structure Row where
  status_code : String := ""
  description : String := ""
  key : String := ""
deriving DecidableEq

/-- Statement shapes issued by the orchestrator, named after the source
functions that build them (`Table.sql_*` live in `hive_metastore.tables`,
not under `src/`; the spec's §6 lists these shapes as the domain protocol). -/
inductive Stmt where
  | sql_migrate_dbfs (src : Table) (target : String)
  | sql_migrate_external (src : Table) (target : String)
  | sql_migrate_view (src : Table) (target : String)
  | sql_alter_to (src : Table) (target : String)
  | sql_alter_from (src : Table) (target : String) (ws_id : Int)
  | sql_unset_upgraded_to (src : Table)
  | drop_table (kind : String) (target : String)
  | show_tblproperties (schema : String) (table : String)
deriving DecidableEq

/-- One backend interaction: an `execute` (no result) or a `fetch`. -/
inductive Act where
  | execute (s : Stmt)
  | fetch (s : Stmt)
deriving DecidableEq

/-- Python exceptions that can escape the modelled operations. -/
inductive MigErr where
  | stopIteration
  | statementFailed
  | keyError
deriving DecidableEq

/-- The SQL execution backend: `ftch` gives the rows a fetch returns and
`execOk` tells whether an execute statement succeeds (false = raises). -/
structure Backend where
  ftch : Stmt → List Row
  execOk : Stmt → Bool

/-- Python `str.lower()`: per-character lowercasing (an executable equivalent
of `String.toLower`, defined over the character list so it evaluates). -/
def strToLower (s : String) : String := String.mk (s.data.map Char.toLower)

/-- Helper for `splitDots`: split a character list on a separator, Python
`str.split(sep)` semantics (an empty input gives one empty field). -/
def splitOnChar (sep : Char) : List Char → List (List Char)
  | [] => [[]]
  | c :: cs =>
    let rest := splitOnChar sep cs
    if c = sep then [] :: rest
    else
      match rest with
      | r :: rs => (c :: r) :: rs
      | [] => [[c]]

/-- Python `target.split(".")`. -/
def splitDots (s : String) : List String := (splitOnChar '.' s.data).map String.mk

/-- Key membership in a Python dict modelled as an association list. -/
def hasKey (d : List (String × String)) (k : String) : Bool :=
  d.any (fun kv => kv.1 == k)

/-- Membership in a Python dict's `.values()`. -/
def hasValue (d : List (String × String)) (v : String) : Bool :=
  d.any (fun kv => kv.2 == v)

/-- Lookup in the inverted dict `{v: k for (k, v) in d.items()}`: the last
item whose value matches wins, matching Python dict-comprehension overwrite
semantics. -/
def reverseSeen (d : List (String × String)) (v : String) : Option String :=
  (d.reverse.find? (fun kv => kv.2 == v)).map (fun kv => kv.1)

/-- Python dict assignment `d[k] = v`: update in place if the key exists
(keeping insertion order), else append. -/
def dictInsert (d : List (String × String)) (k v : String) : List (String × String) :=
  if hasKey d k then d.map (fun kv => if kv.1 == k then (k, v) else kv)
  else d ++ [(k, v)]

namespace TablesMigrate

/-- `TablesMigrate._table_already_upgraded`: key membership of the destination
identity in `_seen_tables`. -/
def table_already_upgraded (seen : List (String × String)) (target : String) : Bool :=
  hasKey seen target

/-- `TablesMigrate._migrate_external_table`: fetch the SYNC statement, take the
first row (`next(iter(...))` raises StopIteration on an empty result), branch
on its status code; on success execute `sql_alter_from` and return True, else
log a warning and return False. -/
def migrate_external_table (b : Backend) (ws_id : Int) (src : Table) (rule : Rule) :
    Except MigErr Bool × List Act :=
  let stmt := Stmt.sql_migrate_external src rule.as_uc_table_key
  match (b.ftch stmt).head? with
  | none => (Except.error MigErr.stopIteration, [Act.fetch stmt])
  | some sync_result =>
    if sync_result.status_code != "SUCCESS" then
      (Except.ok false, [Act.fetch stmt])
    else
      let tag := Stmt.sql_alter_from src rule.as_uc_table_key ws_id
      if b.execOk tag then (Except.ok true, [Act.fetch stmt, Act.execute tag])
      else (Except.error MigErr.statementFailed, [Act.fetch stmt, Act.execute tag])

/-- `TablesMigrate._migrate_dbfs_root_table`: execute the deep-copy statement,
then `sql_alter_to`, then `sql_alter_from`, and return True; a raising
statement aborts the sequence. -/
def migrate_dbfs_root_table (b : Backend) (ws_id : Int) (src : Table) (rule : Rule) :
    Except MigErr Bool × List Act :=
  let s1 := Stmt.sql_migrate_dbfs src rule.as_uc_table_key
  if b.execOk s1 then
    let s2 := Stmt.sql_alter_to src rule.as_uc_table_key
    if b.execOk s2 then
      let s3 := Stmt.sql_alter_from src rule.as_uc_table_key ws_id
      if b.execOk s3 then
        (Except.ok true, [Act.execute s1, Act.execute s2, Act.execute s3])
      else
        (Except.error MigErr.statementFailed,
          [Act.execute s1, Act.execute s2, Act.execute s3])
    else (Except.error MigErr.statementFailed, [Act.execute s1, Act.execute s2])
  else (Except.error MigErr.statementFailed, [Act.execute s1])

/-- `TablesMigrate._migrate_view`: same three-statement sequence with the view
redefinition statement first. -/
def migrate_view (b : Backend) (ws_id : Int) (src : Table) (rule : Rule) :
    Except MigErr Bool × List Act :=
  let s1 := Stmt.sql_migrate_view src rule.as_uc_table_key
  if b.execOk s1 then
    let s2 := Stmt.sql_alter_to src rule.as_uc_table_key
    if b.execOk s2 then
      let s3 := Stmt.sql_alter_from src rule.as_uc_table_key ws_id
      if b.execOk s3 then
        (Except.ok true, [Act.execute s1, Act.execute s2, Act.execute s3])
      else
        (Except.error MigErr.statementFailed,
          [Act.execute s1, Act.execute s2, Act.execute s3])
    else (Except.error MigErr.statementFailed, [Act.execute s1, Act.execute s2])
  else (Except.error MigErr.statementFailed, [Act.execute s1])

/-- `TablesMigrate._migrate_table`: already-upgraded check, then dispatch on
the classification; any other classification is a logged no-op returning True. -/
def migrate_table (b : Backend) (ws_id : Int) (seen : List (String × String))
    (src : Table) (rule : Rule) : Except MigErr Bool × List Act :=
  if table_already_upgraded seen rule.as_uc_table_key then (Except.ok true, [])
  else if src.what = What.DBFS_ROOT_DELTA then migrate_dbfs_root_table b ws_id src rule
  else if src.what = What.EXTERNAL_SYNC then migrate_external_table b ws_id src rule
  else if src.what = What.VIEW then migrate_view b ws_id src rule
  else (Except.ok true, [])

/-- `TablesMigrate.migrate_tables`: one `_migrate_table` task per (source,
rule) pair whose classification matches the optional filter. The concurrent
runner is modelled as the list of per-task outcomes. -/
def migrate_tables (b : Backend) (ws_id : Int) (seen : List (String × String))
    (pairs : List (Table × Rule)) (what : Option What) :
    List (Except MigErr Bool × List Act) :=
  (pairs.filter (fun p =>
    match what with
    | none => true
    | some w => decide (p.1.what = w))).map (fun p => migrate_table b ws_id seen p.1 p.2)

/-- Python truthiness-and-lowercasing of an optional string filter
(`schema.lower() if schema else None`). -/
def normOpt (s : Option String) : Option String :=
  match s with
  | none => none
  | some s => if s == "" then none else some (strToLower s)

/-- `TablesMigrate._get_tables_to_revert`: lowercase the filters, then keep the
snapshot tables passing the schema filter, the table filter and whose key is
among the seen-index values. -/
def get_tables_to_revert (seen : List (String × String)) (snapshot : List Table)
    (schema tbl : Option String) : List Table :=
  let schema := normOpt schema
  let tbl := normOpt tbl
  snapshot.filter (fun c =>
    (match schema with | some s => c.database == s | none => true) &&
    (match tbl with | some t => c.name == t | none => true) &&
    hasValue seen c.key)

/-- Condition under which `_get_tables_to_revert` logs
"Cannot accept 'Table' parameter without 'Schema' parameter". -/
def revert_error_logged (schema tbl : Option String) : Bool :=
  (normOpt tbl).isSome && !(normOpt schema).isSome

/-- The revert candidates actually enqueued as tasks: views and external
objects always, anything else only when `delete_managed` is set. -/
def selected_for_revert (seen : List (String × String)) (snapshot : List Table)
    (schema tbl : Option String) (delete_managed : Bool) : List Table :=
  (get_tables_to_revert seen snapshot schema tbl).filter (fun t =>
    t.kind == "VIEW" || t.object_type == "EXTERNAL" || delete_managed)

/-- Task construction in `revert_migrated_tables`: pair each selected table
with `reverse_seen[table.key]`; a missing key raises KeyError before any task
runs. -/
def build_revert_tasks (seen : List (String × String)) :
    List Table → Except MigErr (List (Table × String))
  | [] => Except.ok []
  | t :: rest =>
    match reverseSeen seen t.key with
    | none => Except.error MigErr.keyError
    | some target =>
      match build_revert_tasks seen rest with
      | Except.error e => Except.error e
      | Except.ok tasks => Except.ok ((t, target) :: tasks)

/-- `TablesMigrate._revert_migrated_table`: clear the source-side migrated-to
tag, then `DROP {kind} IF EXISTS {target}`. -/
def revert_migrated_table (b : Backend) (t : Table) (target : String) :
    Except MigErr Unit × List Act :=
  let s1 := Stmt.sql_unset_upgraded_to t
  if b.execOk s1 then
    let s2 := Stmt.drop_table t.kind target
    if b.execOk s2 then (Except.ok (), [Act.execute s1, Act.execute s2])
    else (Except.error MigErr.statementFailed, [Act.execute s1, Act.execute s2])
  else (Except.error MigErr.statementFailed, [Act.execute s1])

/-- `TablesMigrate.revert_migrated_tables`: build the eligible task list, then
run every task; the runner is modelled as the list of per-task outcomes. -/
def revert_migrated_tables (b : Backend) (seen : List (String × String))
    (snapshot : List Table) (schema tbl : Option String) (delete_managed : Bool) :
    Except MigErr (List (Except MigErr Unit × List Act)) :=
  match build_revert_tasks seen (selected_for_revert seen snapshot schema tbl delete_managed) with
  | Except.error e => Except.error e
  | Except.ok tasks => Except.ok (tasks.map (fun p => revert_migrated_table b p.1 p.2))

/-- `defaultdict(list)` grouping by database, preserving first-occurrence
order of databases and appending tables in iteration order. -/
def groupAdd (g : List (String × List Table)) (t : Table) : List (String × List Table) :=
  if g.any (fun kv => kv.1 == t.database) then
    g.map (fun kv => if kv.1 == t.database then (kv.1, kv.2 ++ [t]) else kv)
  else g ++ [(t.database, [t])]

/-- Per-`What` counter update `what_count[what] = what_count.get(what, 0) + 1`. -/
def bumpWhat (d : List (What × Nat)) (w : What) : List (What × Nat) :=
  if d.any (fun kv => decide (kv.1 = w)) then
    d.map (fun kv => if kv.1 = w then (kv.1, kv.2 + 1) else kv)
  else d ++ [(w, 1)]

/-- The per-database `what_count` loop of `_get_revert_count`: only tables
whose `upgraded_to` is not None are counted. -/
def countWhat (ts : List Table) : List (What × Nat) :=
  ts.foldl (fun wc t => if t.upgraded_to.isSome then bumpWhat wc t.what else wc) []

/-- `TablesMigrate._get_revert_count`: group the revert candidates by database
and count migrated objects per classification. -/
def get_revert_count (seen : List (String × String)) (snapshot : List Table)
    (schema tbl : Option String) : List MigrationCount :=
  let upgraded := get_tables_to_revert seen snapshot schema tbl
  (upgraded.foldl groupAdd []).map (fun kv =>
    { database := kv.1, what_count := countWhat kv.2 })

/-- `TablesMigrate.print_revert_report`: False (after logging "No migrated
tables were found.") when the count list is empty, True otherwise; the body
only prints. -/
def print_revert_report (seen : List (String × String)) (snapshot : List Table)
    (delete_managed : Bool) : Bool :=
  if get_revert_count seen snapshot none none = [] then false else true

end TablesMigrate

namespace MigrationStatusRefresher

/-- A destination-service schema as returned by `schemas.list`. -/
structure SchemaInfo where
  catalog_name : String
  name : String
deriving DecidableEq

/-- A destination-service table as returned by `tables.list`: `full_name` and
`properties` can be absent (None) or falsy (empty). -/
structure WsTable where
  name : String
  full_name : Option String := none
  properties : Option (List (String × String)) := none
deriving DecidableEq

/-- Python dict lookup `props["upgraded_from"]`; only used under the
membership guard, so the missing-key default is never reached there. -/
def propsGet (props : List (String × String)) (k : String) : String :=
  match props.find? (fun kv => kv.1 == k) with
  | some kv => kv.2
  | none => ""

/-- Loop body of `MigrationStatusRefresher.get_seen_tables`: skip tables with
falsy properties, without the `upgraded_from` property, or with a falsy full
name (the last with a logged warning); otherwise record
`seen[full_name.lower()] = properties["upgraded_from"].lower()`. -/
def seen_step (seen : List (String × String)) (t : WsTable) : List (String × String) :=
  match t.properties with
  | none => seen
  | some props =>
    if props.isEmpty then seen
    else if !(props.any (fun kv => kv.1 == "upgraded_from")) then seen
    else
      match t.full_name with
      | none => seen
      | some f =>
        if f == "" then seen
        else dictInsert seen (strToLower f) (strToLower (propsGet props "upgraded_from"))

/-- `MigrationStatusRefresher.get_seen_tables`: iterate every schema reachable
via `_iter_schemas` and every table listed in it, accumulating the
seen-objects dict. -/
def get_seen_tables (ws : List (SchemaInfo × List WsTable)) : List (String × String) :=
  ws.foldl (fun seen sp => sp.2.foldl seen_step seen) []

/-- All destination tables listed across the reachable schemas. -/
def allTables (ws : List (SchemaInfo × List WsTable)) : List WsTable :=
  ws.flatMap (fun sp => sp.2)

/-- `MigrationStatusRefresher.is_upgraded`: fetch SHOW TBLPROPERTIES and
return true iff some row has `row["key"] == "upgraded_to"`. -/
def is_upgraded (b : Backend) (schema table : String) : Bool :=
  (b.ftch (Stmt.show_tblproperties schema table)).any (fun row => row.key == "upgraded_to")

/-- Loop body of `MigrationStatusRefresher._crawl` for one source table:
start from a record with only the source identity and timestamp; if the key
is in the inverted seen dict and the point check confirms the tag, and the
target splits into exactly three dot-separated parts, attach them. -/
def crawl_one (b : Backend) (seen : List (String × String)) (ts : String) (t : Table) :
    MigrationStatus :=
  let base : MigrationStatus :=
    { src_schema := t.database, src_table := t.name, update_ts := some ts }
  match reverseSeen seen t.key with
  | none => base
  | some target =>
    if is_upgraded b t.database t.name then
      match splitDots target with
      | [c, s, tb] =>
        { base with dst_catalog := some c, dst_schema := some s, dst_table := some tb }
      | _ => base
    else base

/-- `MigrationStatusRefresher._crawl`: one `MigrationStatus` per source
inventory table, in inventory order. -/
def crawl (b : Backend) (seen : List (String × String)) (ts : String)
    (tables : List Table) : List MigrationStatus :=
  tables.map (crawl_one b seen ts)

end MigrationStatusRefresher

/-! Concrete fixtures used by witnesses and counterexamples. -/

/-- A destination rule mapping to `main.sales.orders`. -/
def ruleW : Rule := { catalog := "main", dst_schema := "sales", dst_table := "orders" }

/-- An external table classified for metadata-only sync. -/
def tExt : Table :=
  { database := "sales", name := "orders", key := "hive_metastore.sales.orders",
    kind := "TABLE", object_type := "EXTERNAL", what := What.EXTERNAL_SYNC }

/-- A managed DBFS-root table. -/
def tDbfs : Table :=
  { database := "sales", name := "orders", key := "hive_metastore.sales.orders",
    kind := "TABLE", object_type := "MANAGED", what := What.DBFS_ROOT_DELTA }

/-- A managed table already migrated (its tag records the destination). -/
def tMan : Table :=
  { database := "sales", name := "orders", key := "hive_metastore.sales.orders",
    kind := "TABLE", object_type := "MANAGED", what := What.DBFS_ROOT_DELTA,
    upgraded_to := some "main.sales.orders" }

/-- A table with no migration strategy. -/
def tNS : Table :=
  { database := "sales", name := "orders", key := "hive_metastore.sales.orders",
    kind := "TABLE", object_type := "MANAGED", what := What.NOT_SUPPORTED }

/-- A seen-objects index where `main.sales.orders` was migrated from
`hive_metastore.sales.orders`. -/
def seenW : List (String × String) := [("main.sales.orders", "hive_metastore.sales.orders")]

/-- A backend whose statements all succeed and whose fetches return no rows. -/
def bAllOk : Backend := { ftch := fun _ => [], execOk := fun _ => true }

/-- A backend whose SYNC fetch reports SUCCESS and whose statements succeed. -/
def bSyncOk : Backend :=
  { ftch := fun s =>
      match s with
      | Stmt.sql_migrate_external _ _ => [{ status_code := "SUCCESS" }]
      | _ => [],
    execOk := fun _ => true }

/-- A backend whose SYNC fetch reports a failure status. -/
def bSyncFail : Backend :=
  { ftch := fun s =>
      match s with
      | Stmt.sql_migrate_external _ _ =>
        [{ status_code := "FAILED", description := "permission denied" }]
      | _ => [],
    execOk := fun _ => true }

/-- A backend on which every execute statement raises. -/
def bExecFail : Backend := { ftch := fun _ => [], execOk := fun _ => false }

/-- A seen-objects index whose recorded destination identity is malformed
(not a three-part name). -/
def seenBad : List (String × String) := [("badtarget", "hive_metastore.sales.orders")]

/-- A backend whose SHOW TBLPROPERTIES fetch confirms the `upgraded_to` tag. -/
def bUp : Backend :=
  { ftch := fun s =>
      match s with
      | Stmt.show_tblproperties _ _ => [{ key := "upgraded_to" }]
      | _ => [],
    execOk := fun _ => true }

/-- The seen-index entry contributed by one destination table, if any: the
derived form of `seen_step`'s guards, used to state and prove the index
characterization. -/
def entry_of (t : MigrationStatusRefresher.WsTable) : Option (String × String) :=
  match t.properties, t.full_name with
  | some props, some f =>
    if !props.isEmpty && props.any (fun kv => kv.1 == "upgraded_from") && !(f == "") then
      some (strToLower f, strToLower (MigrationStatusRefresher.propsGet props "upgraded_from"))
    else none
  | _, _ => none

/-- A concrete destination-service state: one schema holding one tagged table
(with mixed-case identities) and one untagged table. -/
def wsW : List (MigrationStatusRefresher.SchemaInfo × List MigrationStatusRefresher.WsTable) :=
  [({ catalog_name := "main", name := "sales" },
    [{ name := "orders", full_name := some "Main.Sales.Orders",
       properties := some [("upgraded_from", "HIVE_metastore.Sales.Orders")] },
     { name := "plain", full_name := some "main.sales.plain",
       properties := some [("other", "y")] }])]

/-! Helper lemmas (shared, not tied to any single claim). -/

/-- Every task built by `build_revert_tasks` pairs a table drawn from the
input list. -/
theorem build_revert_tasks_mem_src (seen : List (String × String)) :
    ∀ (l : List Table) (res : List (Table × String)),
      TablesMigrate.build_revert_tasks seen l = Except.ok res →
      ∀ p ∈ res, p.1 ∈ l := by
  intro l
  induction l with
  | nil =>
    intro res h p hp
    unfold TablesMigrate.build_revert_tasks at h
    cases h
    cases hp
  | cons t rest ih =>
    intro res h p hp
    unfold TablesMigrate.build_revert_tasks at h
    cases hrev : reverseSeen seen t.key with
    | none => rw [hrev] at h; cases h
    | some target =>
      rw [hrev] at h
      cases hrest : TablesMigrate.build_revert_tasks seen rest with
      | error e => rw [hrest] at h; cases h
      | ok tasks =>
        rw [hrest] at h
        cases h
        rcases List.mem_cons.mp hp with hps | hps
        · rw [hps]; exact List.mem_cons_self t rest
        · exact List.mem_cons_of_mem t (ih tasks hrest p hps)

/-- Every input table of a successful `build_revert_tasks` run appears in some
built task. -/
theorem build_revert_tasks_mem_tgt (seen : List (String × String)) :
    ∀ (l : List Table) (res : List (Table × String)) (t : Table),
      TablesMigrate.build_revert_tasks seen l = Except.ok res →
      t ∈ l → ∃ tgt, (t, tgt) ∈ res := by
  intro l
  induction l with
  | nil => intro res t h ht; cases ht
  | cons u rest ih =>
    intro res t h ht
    unfold TablesMigrate.build_revert_tasks at h
    cases hrev : reverseSeen seen u.key with
    | none => rw [hrev] at h; cases h
    | some target =>
      rw [hrev] at h
      cases hrest : TablesMigrate.build_revert_tasks seen rest with
      | error e => rw [hrest] at h; cases h
      | ok tasks =>
        rw [hrest] at h
        cases h
        rcases List.mem_cons.mp ht with hts | hts
        · exact ⟨target, by rw [hts]; exact List.mem_cons_self _ _⟩
        · obtain ⟨tgt, htgt⟩ := ih tasks t hrest hts
          exact ⟨tgt, List.mem_cons_of_mem _ htgt⟩

/-- `groupAdd` never produces an empty grouping. -/
theorem groupAdd_ne_nil (g : List (String × List Table)) (t : Table) :
    TablesMigrate.groupAdd g t ≠ [] := by
  unfold TablesMigrate.groupAdd
  by_cases h : g.any (fun kv => kv.1 == t.database)
  · simp only [h, if_true]
    intro hnil
    rw [List.map_eq_nil_iff] at hnil
    rw [hnil] at h
    cases h
  · simp [h]

/-- Folding `groupAdd` over any list preserves non-emptiness. -/
theorem foldl_groupAdd_ne_nil (l : List Table) (g : List (String × List Table))
    (h : g ≠ []) : l.foldl TablesMigrate.groupAdd g ≠ [] := by
  induction l generalizing g with
  | nil => simpa using h
  | cons t rest ih => exact ih _ (groupAdd_ne_nil g t)

/-- The per-database count list is empty exactly when there are no revert
candidates. -/
theorem get_revert_count_eq_nil_iff (seen : List (String × String))
    (snapshot : List Table) (schema tbl : Option String) :
    TablesMigrate.get_revert_count seen snapshot schema tbl = [] ↔
    TablesMigrate.get_tables_to_revert seen snapshot schema tbl = [] := by
  unfold TablesMigrate.get_revert_count
  constructor
  · intro h
    rw [List.map_eq_nil_iff] at h
    cases hcand : TablesMigrate.get_tables_to_revert seen snapshot schema tbl with
    | nil => rfl
    | cons t rest =>
      rw [hcand] at h
      rw [List.foldl_cons] at h
      exact absurd h (foldl_groupAdd_ne_nil rest _ (groupAdd_ne_nil [] t))
  · intro h; rw [h]; rfl

/-! Claim theorems. -/

/-- C1: when the rule's destination identity is already in the seen-objects
index, `_migrate_table` returns True with an empty backend trace (no execute
and no fetch); consequently a `migrate_tables` run in which every rule's
destination is already in the index produces only empty-trace successes,
i.e. zero copy/register/redefine statements. -/
theorem migrate_table_seen_noop
    (b : Backend) (ws_id : Int) (seen : List (String × String))
    (src : Table) (rule : Rule) (pairs : List (Table × Rule)) (what : Option What)
    (h1 : TablesMigrate.table_already_upgraded seen rule.as_uc_table_key = true)
    (h2 : ∀ p ∈ pairs, TablesMigrate.table_already_upgraded seen p.2.as_uc_table_key = true) :
    TablesMigrate.migrate_table b ws_id seen src rule = (Except.ok true, []) ∧
    ∀ r ∈ TablesMigrate.migrate_tables b ws_id seen pairs what,
      r = (Except.ok true, []) := by
  constructor
  · unfold TablesMigrate.migrate_table
    simp [h1]
  · intro r hr
    unfold TablesMigrate.migrate_tables at hr
    obtain ⟨p, hp, rfl⟩ := List.mem_map.mp hr
    have hp2 := h2 p (List.mem_filter.mp hp).1
    unfold TablesMigrate.migrate_table
    simp [hp2]

/-- C1 witness: a concrete already-migrated table is a no-op and a run over it
performs zero statements. -/
theorem migrate_table_seen_noop_witness :
    TablesMigrate.migrate_table bAllOk 7 seenW tMan ruleW = (Except.ok true, []) ∧
    ∀ r ∈ TablesMigrate.migrate_tables bAllOk 7 seenW [(tMan, ruleW)] none,
      r = (Except.ok true, []) :=
  migrate_table_seen_noop bAllOk 7 seenW tMan ruleW [(tMan, ruleW)] none
    (by decide) (by decide)

/-- C2: migrating an EXTERNAL_SYNC object (not already migrated) fetches the
sync statement and branches on the first result row: on status "SUCCESS"
exactly one further statement is executed - the `sql_alter_from` tag carrying
the workspace identity - and the task returns True; on any other status no
further statement is executed, the task returns False, and no exception
escapes. -/
theorem migrate_external_sync_status
    (b : Backend) (ws_id : Int) (seen : List (String × String)) (src : Table) (rule : Rule)
    (row : Row) (rest : List Row)
    (h0 : TablesMigrate.table_already_upgraded seen rule.as_uc_table_key = false)
    (h1 : src.what = What.EXTERNAL_SYNC)
    (hf : b.ftch (Stmt.sql_migrate_external src rule.as_uc_table_key) = row :: rest)
    (he : b.execOk (Stmt.sql_alter_from src rule.as_uc_table_key ws_id) = true) :
    TablesMigrate.migrate_table b ws_id seen src rule =
      if row.status_code == "SUCCESS" then
        (Except.ok true,
          [Act.fetch (Stmt.sql_migrate_external src rule.as_uc_table_key),
           Act.execute (Stmt.sql_alter_from src rule.as_uc_table_key ws_id)])
      else
        (Except.ok false, [Act.fetch (Stmt.sql_migrate_external src rule.as_uc_table_key)]) := by
  unfold TablesMigrate.migrate_table TablesMigrate.migrate_external_table
  simp only [h0, h1, hf]
  by_cases hs : row.status_code == "SUCCESS"
  · have hs2 : row.status_code = "SUCCESS" := eq_of_beq hs
    simp [hs, hs2, he]
  · have hs2 : row.status_code ≠ "SUCCESS" := fun h => hs (by simp [h])
    simp [hs, hs2]

/-- C2 witness: a concrete SUCCESS sync run issues exactly the fetch and the
one tagging statement and returns True. -/
theorem migrate_external_sync_status_witness :
    TablesMigrate.migrate_table bSyncOk 7 [] tExt ruleW =
      (Except.ok true,
        [Act.fetch (Stmt.sql_migrate_external tExt ruleW.as_uc_table_key),
         Act.execute (Stmt.sql_alter_from tExt ruleW.as_uc_table_key 7)]) := by
  rw [migrate_external_sync_status bSyncOk 7 [] tExt ruleW
    { status_code := "SUCCESS" } [] rfl rfl rfl rfl]
  simp

/-- C7: migrating a DBFS_ROOT_DELTA object (not already migrated) executes
exactly three statements in order - deep copy, `sql_alter_to`,
`sql_alter_from` with the workspace identity - and a failing deep-copy
statement aborts before either tagging statement is issued. -/
theorem migrate_dbfs_order_and_abort
    (b : Backend) (ws_id : Int) (seen : List (String × String)) (src : Table) (rule : Rule)
    (h0 : TablesMigrate.table_already_upgraded seen rule.as_uc_table_key = false)
    (h1 : src.what = What.DBFS_ROOT_DELTA) :
    (b.execOk (Stmt.sql_migrate_dbfs src rule.as_uc_table_key) = true →
      b.execOk (Stmt.sql_alter_to src rule.as_uc_table_key) = true →
      b.execOk (Stmt.sql_alter_from src rule.as_uc_table_key ws_id) = true →
      TablesMigrate.migrate_table b ws_id seen src rule =
        (Except.ok true,
          [Act.execute (Stmt.sql_migrate_dbfs src rule.as_uc_table_key),
           Act.execute (Stmt.sql_alter_to src rule.as_uc_table_key),
           Act.execute (Stmt.sql_alter_from src rule.as_uc_table_key ws_id)])) ∧
    (b.execOk (Stmt.sql_migrate_dbfs src rule.as_uc_table_key) = false →
      TablesMigrate.migrate_table b ws_id seen src rule =
        (Except.error MigErr.statementFailed,
          [Act.execute (Stmt.sql_migrate_dbfs src rule.as_uc_table_key)])) := by
  constructor
  · intro e1 e2 e3
    unfold TablesMigrate.migrate_table TablesMigrate.migrate_dbfs_root_table
    simp [h0, h1, e1, e2, e3]
  · intro e1
    unfold TablesMigrate.migrate_table TablesMigrate.migrate_dbfs_root_table
    simp [h0, h1, e1]

/-- C7 witness: the concrete three-statement success trace. -/
theorem migrate_dbfs_order_and_abort_witness :
    TablesMigrate.migrate_table bAllOk 7 [] tDbfs ruleW =
      (Except.ok true,
        [Act.execute (Stmt.sql_migrate_dbfs tDbfs ruleW.as_uc_table_key),
         Act.execute (Stmt.sql_alter_to tDbfs ruleW.as_uc_table_key),
         Act.execute (Stmt.sql_alter_from tDbfs ruleW.as_uc_table_key 7)]) :=
  (migrate_dbfs_order_and_abort bAllOk 7 [] tDbfs ruleW rfl rfl).1 rfl rfl rfl

/-- C8: a source object whose classification is none of DBFS_ROOT_DELTA,
EXTERNAL_SYNC, VIEW (i.e. NOT_SUPPORTED) and whose destination is not in the
seen-objects index migrates as a success with zero backend statements. -/
theorem migrate_table_unsupported_noop
    (b : Backend) (ws_id : Int) (seen : List (String × String)) (src : Table) (rule : Rule)
    (h0 : TablesMigrate.table_already_upgraded seen rule.as_uc_table_key = false)
    (h1 : src.what ≠ What.DBFS_ROOT_DELTA)
    (h2 : src.what ≠ What.EXTERNAL_SYNC)
    (h3 : src.what ≠ What.VIEW) :
    TablesMigrate.migrate_table b ws_id seen src rule = (Except.ok true, []) := by
  unfold TablesMigrate.migrate_table
  simp [h0, h1, h2, h3]

/-- C8 witness: a concrete NOT_SUPPORTED table. -/
theorem migrate_table_unsupported_noop_witness :
    TablesMigrate.migrate_table bAllOk 7 [] tNS ruleW = (Except.ok true, []) :=
  migrate_table_unsupported_noop bAllOk 7 [] tNS ruleW
    (by decide) (by decide) (by decide) (by decide)

/-- C10: when the backend's fetch of the sync statement yields no rows,
migrating an EXTERNAL_SYNC object raises (StopIteration from `next` on an
empty iterator) instead of returning False. -/
theorem migrate_external_empty_fetch_raises
    (b : Backend) (ws_id : Int) (seen : List (String × String)) (src : Table) (rule : Rule)
    (h0 : TablesMigrate.table_already_upgraded seen rule.as_uc_table_key = false)
    (h1 : src.what = What.EXTERNAL_SYNC)
    (hf : b.ftch (Stmt.sql_migrate_external src rule.as_uc_table_key) = []) :
    TablesMigrate.migrate_table b ws_id seen src rule =
      (Except.error MigErr.stopIteration,
        [Act.fetch (Stmt.sql_migrate_external src rule.as_uc_table_key)]) := by
  unfold TablesMigrate.migrate_table TablesMigrate.migrate_external_table
  simp [h0, h1, hf]

/-- C10 witness: a concrete empty fetch raises. -/
theorem migrate_external_empty_fetch_raises_witness :
    TablesMigrate.migrate_table bAllOk 7 [] tExt ruleW =
      (Except.error MigErr.stopIteration,
        [Act.fetch (Stmt.sql_migrate_external tExt ruleW.as_uc_table_key)]) :=
  migrate_external_empty_fetch_raises bAllOk 7 [] tExt ruleW rfl rfl rfl

/-- C3 counterexample: a migrated managed table (kind TABLE, object type
MANAGED, key among the seen-index values) with `delete_managed = false` is
skipped entirely by revert - no task is built, so its migrated-to tag is NOT
cleared (the claim says the tag clear still happens); with
`delete_managed = true` both the tag clear and the drop are issued. -/
theorem revert_managed_skip_counterexample :
    tMan.kind ≠ "VIEW" ∧ tMan.object_type ≠ "EXTERNAL" ∧
    hasValue seenW tMan.key = true ∧
    TablesMigrate.revert_migrated_tables bAllOk seenW [tMan] none none false =
      Except.ok [] ∧
    TablesMigrate.revert_migrated_tables bAllOk seenW [tMan] none none true =
      Except.ok [(Except.ok (),
        [Act.execute (Stmt.sql_unset_upgraded_to tMan),
         Act.execute (Stmt.drop_table tMan.kind "main.sales.orders")])] :=
  ⟨by decide, by decide, by decide, rfl, rfl⟩

/-- C3 (amended): a managed revert candidate (kind not VIEW, object type not
EXTERNAL) is skipped entirely when `delete_managed` is false - it appears in
no built task, so neither its tag-clear nor its drop statement is issued;
when `delete_managed` is true it is enqueued, and its task executes the
tag-clear followed by the conditional drop. -/
theorem revert_managed_gating
    (seen : List (String × String)) (snapshot : List Table)
    (schema tbl : Option String) (t : Table)
    (hk : t.kind ≠ "VIEW") (ho : t.object_type ≠ "EXTERNAL") :
    (∀ res, TablesMigrate.build_revert_tasks seen
        (TablesMigrate.selected_for_revert seen snapshot schema tbl false) =
          Except.ok res →
      ∀ p ∈ res, p.1 ≠ t) ∧
    (t ∈ TablesMigrate.get_tables_to_revert seen snapshot schema tbl →
      ∀ res, TablesMigrate.build_revert_tasks seen
          (TablesMigrate.selected_for_revert seen snapshot schema tbl true) =
            Except.ok res →
        ∃ tgt, (t, tgt) ∈ res) ∧
    (∀ b tgt, b.execOk (Stmt.sql_unset_upgraded_to t) = true →
      b.execOk (Stmt.drop_table t.kind tgt) = true →
      TablesMigrate.revert_migrated_table b t tgt =
        (Except.ok (),
          [Act.execute (Stmt.sql_unset_upgraded_to t),
           Act.execute (Stmt.drop_table t.kind tgt)])) := by
  refine ⟨?_, ?_, ?_⟩
  · intro res hres p hp heq
    have h1 := build_revert_tasks_mem_src seen _ res hres p hp
    unfold TablesMigrate.selected_for_revert at h1
    have h2 := (List.mem_filter.mp h1).2
    rw [heq] at h2
    simp at h2
    rcases h2 with h2 | h2
    · exact hk h2
    · exact ho h2
  · intro hcand res hres
    refine build_revert_tasks_mem_tgt seen _ res t hres ?_
    unfold TablesMigrate.selected_for_revert
    exact List.mem_filter.mpr ⟨hcand, by simp⟩
  · intro b tgt hx hy
    unfold TablesMigrate.revert_migrated_table
    simp [hx, hy]

/-- C3 witness: the gating at a concrete managed table. -/
theorem revert_managed_gating_witness :
    (∀ res, TablesMigrate.build_revert_tasks seenW
        (TablesMigrate.selected_for_revert seenW [tMan] none none false) =
          Except.ok res →
      ∀ p ∈ res, p.1 ≠ tMan) ∧
    (tMan ∈ TablesMigrate.get_tables_to_revert seenW [tMan] none none →
      ∀ res, TablesMigrate.build_revert_tasks seenW
          (TablesMigrate.selected_for_revert seenW [tMan] none none true) =
            Except.ok res →
        ∃ tgt, (tMan, tgt) ∈ res) ∧
    (∀ b tgt, b.execOk (Stmt.sql_unset_upgraded_to tMan) = true →
      b.execOk (Stmt.drop_table tMan.kind tgt) = true →
      TablesMigrate.revert_migrated_table b tMan tgt =
        (Except.ok (),
          [Act.execute (Stmt.sql_unset_upgraded_to tMan),
           Act.execute (Stmt.drop_table tMan.kind tgt)])) :=
  revert_managed_gating seenW [tMan] none none tMan (by decide) (by decide)

/-- C4 counterexample: a table filter given without a schema filter logs the
error but does NOT empty the selection - the matching migrated table is
still returned. -/
theorem revert_table_filter_counterexample :
    TablesMigrate.revert_error_logged none (some "orders") = true ∧
    TablesMigrate.get_tables_to_revert seenW [tMan] none (some "orders") = [tMan] ∧
    TablesMigrate.get_tables_to_revert seenW [tMan] none (some "orders") ≠ [] :=
  ⟨by decide, by decide, by decide⟩

/-- C4 (amended): with a table filter and no schema filter the error is
logged, but selection proceeds with the table filter applied (and no schema
filter): it returns exactly the snapshot tables whose name equals the
lower-cased filter and whose key appears among the seen-index values. -/
theorem revert_table_filter_without_schema
    (seen : List (String × String)) (snapshot : List Table) (t : String)
    (h : t ≠ "") :
    TablesMigrate.revert_error_logged none (some t) = true ∧
    TablesMigrate.get_tables_to_revert seen snapshot none (some t) =
      snapshot.filter (fun c => c.name == strToLower t && hasValue seen c.key) := by
  have hne : (t == "") = false := by
    rw [beq_eq_false_iff_ne]
    exact h
  have hnorm : TablesMigrate.normOpt (some t) = some (strToLower t) := by
    unfold TablesMigrate.normOpt
    simp [hne]
  constructor
  · unfold TablesMigrate.revert_error_logged
    rw [hnorm]
    rfl
  · unfold TablesMigrate.get_tables_to_revert
    rw [hnorm]
    simp [TablesMigrate.normOpt]

/-- C4 witness: the amended selection at a concrete input. -/
theorem revert_table_filter_without_schema_witness :
    TablesMigrate.revert_error_logged none (some "orders") = true ∧
    TablesMigrate.get_tables_to_revert seenW [tMan] none (some "orders") =
      [tMan].filter (fun c => c.name == strToLower "orders" && hasValue seenW c.key) :=
  revert_table_filter_without_schema seenW [tMan] "orders" (by decide)

/-- C9: the revert report returns False exactly when the per-database count
list is empty, which happens exactly when there are no revert candidates;
it returns True otherwise. (The modelled report performs no backend
execute/fetch at all: its only inputs are the seen index and the inventory
snapshot.) -/
theorem print_revert_report_spec (seen : List (String × String))
    (snapshot : List Table) (dm : Bool) :
    (TablesMigrate.print_revert_report seen snapshot dm = false ↔
      TablesMigrate.get_revert_count seen snapshot none none = []) ∧
    (TablesMigrate.print_revert_report seen snapshot dm = true ↔
      TablesMigrate.get_revert_count seen snapshot none none ≠ []) ∧
    (TablesMigrate.get_revert_count seen snapshot none none = [] ↔
      TablesMigrate.get_tables_to_revert seen snapshot none none = []) := by
  refine ⟨?_, ?_, get_revert_count_eq_nil_iff seen snapshot none none⟩ <;>
    unfold TablesMigrate.print_revert_report <;>
    by_cases h : TablesMigrate.get_revert_count seen snapshot none none = [] <;>
    simp [h]

/-- Characterization of one `_crawl` record: the source identity and timestamp
are always set, and the destination fields are set exactly when the inverted
seen dict has the key, the point check confirms the tag, and the recorded
target splits into exactly three dot-separated parts. -/
theorem crawl_one_spec (b : Backend) (seen : List (String × String)) (ts : String)
    (t : Table) :
    (MigrationStatusRefresher.crawl_one b seen ts t).src_schema = t.database ∧
    (MigrationStatusRefresher.crawl_one b seen ts t).src_table = t.name ∧
    (MigrationStatusRefresher.crawl_one b seen ts t).update_ts = some ts ∧
    (((MigrationStatusRefresher.crawl_one b seen ts t).dst_catalog ≠ none ∨
      (MigrationStatusRefresher.crawl_one b seen ts t).dst_schema ≠ none ∨
      (MigrationStatusRefresher.crawl_one b seen ts t).dst_table ≠ none) ↔
      (∃ target, reverseSeen seen t.key = some target ∧
        MigrationStatusRefresher.is_upgraded b t.database t.name = true ∧
        (splitDots target).length = 3)) := by
  refine ⟨?_, ?_, ?_, ?_⟩ <;>
  · unfold MigrationStatusRefresher.crawl_one
    cases hrev : reverseSeen seen t.key with
    | none => simp
    | some target =>
      cases hup : MigrationStatusRefresher.is_upgraded b t.database t.name with
      | false => simp
      | true =>
        rcases hsplit : splitDots target with _ | ⟨c, _ | ⟨s, _ | ⟨tb, _ | ⟨d, rest⟩⟩⟩⟩ <;>
          simp [hsplit]

/-- C5 counterexample: the inverted index contains the source key and the
point check confirms the tag, yet the destination fields stay unset because
the recorded destination identity does not split into three parts - so the
claimed "iff" fails in the right-to-left direction. -/
theorem crawl_malformed_target_counterexample :
    (reverseSeen seenBad tDbfs.key).isSome = true ∧
    MigrationStatusRefresher.is_upgraded bUp tDbfs.database tDbfs.name = true ∧
    MigrationStatusRefresher.crawl bUp seenBad "ts0" [tDbfs] =
      [{ src_schema := "sales", src_table := "orders", update_ts := some "ts0" }] :=
  ⟨rfl, rfl, rfl⟩

/-- C5 (amended): `_crawl` yields exactly one record per source inventory
entry, in order, each carrying the source identity and timestamp, and a
record's destination fields are set iff the inverted seen-objects index
contains the source key, `is_upgraded` confirms the tag, AND the recorded
destination identity splits into exactly three dot-separated segments. -/
theorem migration_status_coverage
    (b : Backend) (seen : List (String × String)) (ts : String) (tables : List Table)
    (i : Nat) (h : i < tables.length) :
    (MigrationStatusRefresher.crawl b seen ts tables).length = tables.length ∧
    ∀ r, (MigrationStatusRefresher.crawl b seen ts tables)[i]? = some r →
      r.src_schema = tables[i].database ∧
      r.src_table = tables[i].name ∧
      r.update_ts = some ts ∧
      ((r.dst_catalog ≠ none ∨ r.dst_schema ≠ none ∨ r.dst_table ≠ none) ↔
        (∃ target, reverseSeen seen tables[i].key = some target ∧
          MigrationStatusRefresher.is_upgraded b tables[i].database tables[i].name = true ∧
          (splitDots target).length = 3)) := by
  constructor
  · unfold MigrationStatusRefresher.crawl
    exact List.length_map _ _
  · intro r hr
    unfold MigrationStatusRefresher.crawl at hr
    rw [List.getElem?_map, List.getElem?_eq_getElem h] at hr
    simp only [Option.map_some'] at hr
    injection hr with hr2
    rw [← hr2]
    exact crawl_one_spec b seen ts tables[i]

/-- C5 witness: the coverage statement at a concrete one-table inventory. -/
theorem migration_status_coverage_witness :
    (MigrationStatusRefresher.crawl bUp seenW "ts0" [tDbfs]).length = [tDbfs].length ∧
    ∀ r, (MigrationStatusRefresher.crawl bUp seenW "ts0" [tDbfs])[0]? = some r →
      r.src_schema = [tDbfs][0].database ∧
      r.src_table = [tDbfs][0].name ∧
      r.update_ts = some "ts0" ∧
      ((r.dst_catalog ≠ none ∨ r.dst_schema ≠ none ∨ r.dst_table ≠ none) ↔
        (∃ target, reverseSeen seenW [tDbfs][0].key = some target ∧
          MigrationStatusRefresher.is_upgraded bUp [tDbfs][0].database [tDbfs][0].name = true ∧
          (splitDots target).length = 3)) :=
  migration_status_coverage bUp seenW "ts0" [tDbfs] 0 (by decide)

/-- Keys are preserved by the in-place update map of `dictInsert`. -/
theorem hasKey_update_map (d : List (String × String)) (k v k0 : String) :
    hasKey (d.map (fun kv => if kv.1 == k then (k, v) else kv)) k0 = hasKey d k0 := by
  induction d with
  | nil => rfl
  | cons a rest ih =>
    unfold hasKey at *
    simp only [List.map_cons, List.any_cons, ih]
    by_cases ha : a.1 == k
    · have ha2 : a.1 = k := eq_of_beq ha
      simp [ha, ha2]
    · simp [ha]

/-- Key membership after a Python dict assignment. -/
theorem hasKey_dictInsert (d : List (String × String)) (k v k0 : String) :
    hasKey (dictInsert d k v) k0 = (k0 == k || hasKey d k0) := by
  unfold dictInsert
  by_cases h : hasKey d k
  · rw [if_pos h, hasKey_update_map]
    by_cases hk0 : k0 == k
    · have hk2 : k0 = k := eq_of_beq hk0
      rw [hk2]
      simp [h]
    · simp [hk0]
  · rw [if_neg h]
    unfold hasKey at *
    rw [List.any_append]
    by_cases hk0 : k0 == k
    · have hk2 : k0 = k := eq_of_beq hk0
      rw [hk2]
      simp
    · have hne : k0 ≠ k := fun e => hk0 (by rw [e]; exact beq_self_eq_true k)
      have hkk : (k == k0) = false := by
        rw [beq_eq_false_iff_ne]
        exact fun e => hne e.symm
      simp [hk0, hkk]

/-- Every entry after a Python dict assignment is the assigned pair or one of
the previous entries. -/
theorem mem_dictInsert (d : List (String × String)) (k v : String) :
    ∀ e ∈ dictInsert d k v, e = (k, v) ∨ e ∈ d := by
  intro e he
  unfold dictInsert at he
  by_cases h : hasKey d k
  · rw [if_pos h] at he
    obtain ⟨a, ha, hae⟩ := List.mem_map.mp he
    by_cases hak : a.1 == k
    · left
      rw [← hae]
      simp [hak]
    · right
      rw [← hae]
      simp only [hak, Bool.false_eq_true, if_false]
      exact ha
  · rw [if_neg h] at he
    rcases List.mem_append.mp he with h1 | h1
    · right; exact h1
    · left; simpa using h1

/-- `seen_step` either performs the dict assignment described by `entry_of`
or leaves the dict unchanged. -/
theorem seen_step_entry (seen : List (String × String))
    (t : MigrationStatusRefresher.WsTable) :
    MigrationStatusRefresher.seen_step seen t =
      match entry_of t with
      | some kv => dictInsert seen kv.1 kv.2
      | none => seen := by
  unfold MigrationStatusRefresher.seen_step entry_of
  cases hp : t.properties with
  | none => rfl
  | some props =>
    cases hf : t.full_name with
    | none =>
      by_cases h1 : props.isEmpty <;>
        by_cases h2 : props.any (fun kv => kv.1 == "upgraded_from") <;>
        simp [h1, h2]
    | some f =>
      by_cases h1 : props.isEmpty <;>
        by_cases h2 : props.any (fun kv => kv.1 == "upgraded_from") <;>
        by_cases h3 : f == "" <;>
        simp [h1, h2, h3]

/-- `entry_of` produces an entry exactly for a table with truthy properties
carrying `upgraded_from` and a truthy full name, and the entry is the
lower-cased pair. -/
theorem entry_of_eq_some (t : MigrationStatusRefresher.WsTable) (kv : String × String) :
    entry_of t = some kv ↔
      ∃ f props, t.full_name = some f ∧ t.properties = some props ∧ props ≠ [] ∧
        props.any (fun kv2 => kv2.1 == "upgraded_from") = true ∧ f ≠ "" ∧
        kv = (strToLower f,
          strToLower (MigrationStatusRefresher.propsGet props "upgraded_from")) := by
  constructor
  · intro h
    unfold entry_of at h
    split at h
    next props f hp hf =>
      split at h
      next hcond =>
        injection h with h2
        simp only [Bool.and_eq_true, Bool.not_eq_true'] at hcond
        refine ⟨f, props, hf, hp, ?_, hcond.1.2, ne_of_beq_false hcond.2, h2.symm⟩
        intro he
        rw [he] at hcond
        exact Bool.noConfusion hcond.1.1
      next hcond => exact Option.noConfusion h
    next x y hxy => exact Option.noConfusion h
  · rintro ⟨f, props, hf, hp, hne, hany, hfne, hkv⟩
    unfold entry_of
    rw [hp, hf, hkv]
    have h1 : props.isEmpty = false := by
      cases props with
      | nil => exact absurd rfl hne
      | cons a rest => rfl
    have h3 : (f == "") = false := by
      rw [beq_eq_false_iff_ne]
      exact hfne
    simp [h1, hany, h3]

/-- Key membership in a fold of `seen_step`: the key was present initially or
some processed table contributes it. -/
theorem seen_fold_key (ts : List MigrationStatusRefresher.WsTable) :
    ∀ (seen : List (String × String)) (k0 : String),
      hasKey (ts.foldl MigrationStatusRefresher.seen_step seen) k0 = true ↔
        (hasKey seen k0 = true ∨ ∃ t ∈ ts, ∃ v, entry_of t = some (k0, v)) := by
  induction ts with
  | nil =>
    intro seen k0
    simp
  | cons t rest ih =>
    intro seen k0
    rw [List.foldl_cons, seen_step_entry]
    cases hent : entry_of t with
    | none =>
      rw [ih]
      constructor
      · rintro (h | ⟨u, hu, v, hv⟩)
        · left; exact h
        · right; exact ⟨u, List.mem_cons_of_mem _ hu, v, hv⟩
      · rintro (h | ⟨u, hu, v, hv⟩)
        · left; exact h
        · rcases List.mem_cons.mp hu with he | hu2
          · rw [he] at hv; rw [hent] at hv; cases hv
          · right; exact ⟨u, hu2, v, hv⟩
    | some kv =>
      obtain ⟨k1, v1⟩ := kv
      rw [ih, hasKey_dictInsert]
      constructor
      · rintro (h | ⟨u, hu, v, hv⟩)
        · rcases Bool.or_eq_true_iff.mp h with h2 | h2
          · have : k0 = k1 := eq_of_beq h2
            right
            exact ⟨t, List.mem_cons_self t rest, v1, by rw [hent, this]⟩
          · left; exact h2
        · right; exact ⟨u, List.mem_cons_of_mem _ hu, v, hv⟩
      · rintro (h | ⟨u, hu, v, hv⟩)
        · left
          rw [h]
          exact Bool.or_eq_true_iff.mpr (Or.inr rfl)
        · rcases List.mem_cons.mp hu with he | hu2
          · rw [he, hent] at hv
            injection hv with hv2
            left
            have hk : k1 = k0 := congrArg Prod.fst hv2
            simp [hk]
          · right; exact ⟨u, hu2, v, hv⟩

/-- Every entry of a fold of `seen_step` is an initial entry or the entry
contributed by some processed table. -/
theorem seen_fold_mem (ts : List MigrationStatusRefresher.WsTable) :
    ∀ (seen : List (String × String)) (e : String × String),
      e ∈ ts.foldl MigrationStatusRefresher.seen_step seen →
        e ∈ seen ∨ ∃ t ∈ ts, entry_of t = some e := by
  induction ts with
  | nil =>
    intro seen e he
    left
    simpa using he
  | cons t rest ih =>
    intro seen e he
    rw [List.foldl_cons, seen_step_entry] at he
    cases hent : entry_of t with
    | none =>
      rw [hent] at he
      rcases ih _ e he with h | ⟨u, hu, hv⟩
      · left; exact h
      · right; exact ⟨u, List.mem_cons_of_mem _ hu, hv⟩
    | some kv =>
      rw [hent] at he
      rcases ih _ e he with h | ⟨u, hu, hv⟩
      · rcases mem_dictInsert _ _ _ e h with h1 | h1
        · right
          refine ⟨t, List.mem_cons_self t rest, ?_⟩
          rw [hent, h1]
        · left; exact h1
      · right; exact ⟨u, List.mem_cons_of_mem _ hu, hv⟩

/-- The nested schema/table loops of `get_seen_tables` equal one fold over
the flattened table list. -/
theorem get_seen_tables_eq_fold
    (ws : List (MigrationStatusRefresher.SchemaInfo × List MigrationStatusRefresher.WsTable)) :
    MigrationStatusRefresher.get_seen_tables ws =
      (MigrationStatusRefresher.allTables ws).foldl MigrationStatusRefresher.seen_step [] := by
  suffices h : ∀ (init : List (String × String)),
      ws.foldl (fun seen sp => sp.2.foldl MigrationStatusRefresher.seen_step seen) init =
        (ws.flatMap (fun sp => sp.2)).foldl MigrationStatusRefresher.seen_step init by
    exact h []
  induction ws with
  | nil => intro init; rfl
  | cons sp rest ih =>
    intro init
    rw [List.foldl_cons, List.flatMap_cons, List.foldl_append, ih]

/-- C6: over any destination-service state, the seen-objects index has an
entry for a key iff some listed destination table carries the
`upgraded_from` property (with truthy properties and a truthy full name)
whose lower-cased full name is that key; and every entry of the index is the
pair `(full_name.lower(), upgraded_from.lower())` of such a table - in
particular every key and value is lower-cased. -/
theorem get_seen_tables_spec
    (ws : List (MigrationStatusRefresher.SchemaInfo × List MigrationStatusRefresher.WsTable))
    (k0 : String) :
    (hasKey (MigrationStatusRefresher.get_seen_tables ws) k0 = true ↔
      ∃ t ∈ MigrationStatusRefresher.allTables ws, ∃ f props,
        t.full_name = some f ∧ t.properties = some props ∧ props ≠ [] ∧
        props.any (fun kv => kv.1 == "upgraded_from") = true ∧ f ≠ "" ∧
        strToLower f = k0) ∧
    (∀ e ∈ MigrationStatusRefresher.get_seen_tables ws,
      ∃ t ∈ MigrationStatusRefresher.allTables ws, ∃ f props,
        t.full_name = some f ∧ t.properties = some props ∧ props ≠ [] ∧
        props.any (fun kv => kv.1 == "upgraded_from") = true ∧ f ≠ "" ∧
        e = (strToLower f,
          strToLower (MigrationStatusRefresher.propsGet props "upgraded_from"))) := by
  constructor
  · rw [get_seen_tables_eq_fold, seen_fold_key]
    constructor
    · rintro (habs | ⟨t, ht, v, hv⟩)
      · exact absurd habs (by simp [hasKey])
      · obtain ⟨f, props, hf, hp, hne, hany, hfne, hkv⟩ := (entry_of_eq_some t (k0, v)).mp hv
        have hk : strToLower f = k0 := (congrArg Prod.fst hkv).symm
        exact ⟨t, ht, f, props, hf, hp, hne, hany, hfne, hk⟩
    · rintro ⟨t, ht, f, props, hf, hp, hne, hany, hfne, hk⟩
      right
      refine ⟨t, ht, strToLower (MigrationStatusRefresher.propsGet props "upgraded_from"), ?_⟩
      apply (entry_of_eq_some t _).mpr
      exact ⟨f, props, hf, hp, hne, hany, hfne, by rw [hk]⟩
  · intro e he
    rw [get_seen_tables_eq_fold] at he
    rcases seen_fold_mem _ _ e he with habs | ⟨t, ht, hv⟩
    · exact absurd habs (by simp)
    · obtain ⟨f, props, hf, hp, hne, hany, hfne, hkv⟩ := (entry_of_eq_some t e).mp hv
      exact ⟨t, ht, f, props, hf, hp, hne, hany, hfne, hkv⟩

/-- C6 witness: the characterization at a concrete destination state (one
tagged table with mixed-case identities, one untagged table) and key. -/
theorem get_seen_tables_spec_witness :
    (hasKey (MigrationStatusRefresher.get_seen_tables wsW) "main.sales.orders" = true ↔
      ∃ t ∈ MigrationStatusRefresher.allTables wsW, ∃ f props,
        t.full_name = some f ∧ t.properties = some props ∧ props ≠ [] ∧
        props.any (fun kv => kv.1 == "upgraded_from") = true ∧ f ≠ "" ∧
        strToLower f = "main.sales.orders") ∧
    (∀ e ∈ MigrationStatusRefresher.get_seen_tables wsW,
      ∃ t ∈ MigrationStatusRefresher.allTables wsW, ∃ f props,
        t.full_name = some f ∧ t.properties = some props ∧ props ≠ [] ∧
        props.any (fun kv => kv.1 == "upgraded_from") = true ∧ f ≠ "" ∧
        e = (strToLower f,
          strToLower (MigrationStatusRefresher.propsGet props "upgraded_from"))) :=
  get_seen_tables_spec wsW "main.sales.orders"
